import Mathlib

/-!
Verification of the image-editor core (history manager, image processor,
slider/preview coordination) against its specification.

The embedding mirrors the Python sources:
  * `HistoryManager` models `history_manager.py` (undo/redo stacks; Python's
    `list.append`/`list.pop` push and pop at the END of the list, so the top of
    each stack is the last element of the Lean list).
  * The `ImageProcessor` namespace models `image_processor.py`.  Each Python
    method mutates `self.image` in place; here it is the corresponding pure
    function `PixelBuffer → PixelBuffer` applied on the non-`None` path.
  * `EditorState` / `do_brightness` model the slider-preview coordination of
    `gui_app.py`.
`numpy.ndarray.copy()` is a deep copy producing a bit-identical pixel array;
under value semantics it is the identity, written `npCopy` below.
-/

namespace Editor

/-- A deep copy of an image object (`image.copy()` in the source): numpy's
copy is bit-identical, so under value semantics it is the identity. -/
def npCopy {α : Type} (x : α) : α := x

/-- Model of `HistoryManager` from `history_manager.py`: two stacks of image states.
Generic in the image type, as the Python class is (it only requires a
`copy()` method).  The top of each stack is the LAST list element, matching
Python's `append`/`pop`. -/
structure HistoryManager (α : Type) where
  undo_stack : List α
  redo_stack : List α
deriving DecidableEq, Repr

/-- Model of `HistoryManager.push`: if the image is not `None`, append a copy to
`undo_stack` and clear `redo_stack`; otherwise do nothing. -/
def HistoryManager.push {α : Type} (h : HistoryManager α) (image : Option α) :
    HistoryManager α :=
  match image with
  | some img => { undo_stack := h.undo_stack ++ [npCopy img], redo_stack := [] }
  | none => h

/-- Model of `HistoryManager.undo`: if `undo_stack` is non-empty, append a copy of
`current` to `redo_stack` and pop and return the top of `undo_stack`;
otherwise return `current` with the state unchanged.  Returns the new
manager state together with the returned image. -/
def HistoryManager.undo {α : Type} (h : HistoryManager α) (current : α) :
    HistoryManager α × α :=
  match h.undo_stack.getLast? with
  | some prev =>
      ({ undo_stack := h.undo_stack.dropLast,
         redo_stack := h.redo_stack ++ [npCopy current] }, prev)
  | none => (h, current)

/-- Model of `HistoryManager.redo`: if `redo_stack` is non-empty, append a copy of
`current` to `undo_stack` and pop and return the top of `redo_stack`;
otherwise return `current` with the state unchanged. -/
def HistoryManager.redo {α : Type} (h : HistoryManager α) (current : α) :
    HistoryManager α × α :=
  match h.redo_stack.getLast? with
  | some nxt =>
      ({ undo_stack := h.undo_stack ++ [npCopy current],
         redo_stack := h.redo_stack.dropLast }, nxt)
  | none => (h, current)

end Editor

namespace Editor

/-- One pixel in OpenCV's BGR channel order, with 8-bit channels modelled as
`Nat` (well-formedness bounds them below 256). -/
structure Pixel where
  b : Nat
  g : Nat
  r : Nat
deriving DecidableEq, Repr

/-- A pixel buffer: a numpy `ndarray` of shape `height × width × 3` in BGR
order.  `data` is the row-major grid; `width`/`height` record the shape. -/
structure PixelBuffer where
  width : Nat
  height : Nat
  data : List (List Pixel)
deriving DecidableEq, Repr

/-- Well-formedness of a buffer: positive dimensions, a `height × width`
grid, and 8-bit channel values. -/
def PixelBuffer.wf (buf : PixelBuffer) : Prop :=
  0 < buf.width ∧ 0 < buf.height ∧ buf.data.length = buf.height ∧
    (∀ row ∈ buf.data, row.length = buf.width ∧
      ∀ p ∈ row, p.b < 256 ∧ p.g < 256 ∧ p.r < 256)

instance (buf : PixelBuffer) : Decidable buf.wf := by
  unfold PixelBuffer.wf
  infer_instance

/-- The pixel at row `i`, column `j` (defaulting to black out of range). -/
def PixelBuffer.pixel (buf : PixelBuffer) (i j : Nat) : Pixel :=
  (buf.data.getD i []).getD j ⟨0, 0, 0⟩

/-- Apply `f` to every channel of a pixel. -/
def Pixel.mapChan (f : Nat → Nat) (p : Pixel) : Pixel :=
  ⟨f p.b, f p.g, f p.r⟩

/-- Apply `f` to every pixel of the grid, keeping the recorded shape. -/
def PixelBuffer.mapPixels (f : Pixel → Pixel) (buf : PixelBuffer) :
    PixelBuffer :=
  { buf with data := buf.data.map (List.map f) }

namespace ImageProcessor

/-- One channel of `cv2.convertScaleAbs(img, alpha=1, beta=value)`:
`saturate_cast<uchar>(|x * 1 + value|)`, i.e. absolute value first, then
saturation at 255. -/
def convertScaleAbsChan (value : Int) (x : Nat) : Nat :=
  min 255 ((x + value).natAbs)

/-- Model of `ImageProcessor.brightness(value)`: `cv2.convertScaleAbs` with
`alpha=1, beta=value` applied to the stored image. -/
def brightness (value : Int) (buf : PixelBuffer) : PixelBuffer :=
  buf.mapPixels (Pixel.mapChan (convertScaleAbsChan value))

/-- OpenCV's fixed-point BGR→GRAY conversion (`cv2.COLOR_BGR2GRAY`):
`y = (B·1868 + G·9617 + R·4899 + 2^13) >> 14`. -/
def bgr2grayChan (p : Pixel) : Nat :=
  (p.b * 1868 + p.g * 9617 + p.r * 4899 + 8192) / 16384

/-- Model of `cv2.COLOR_GRAY2BGR`: replicate the single gray channel into B, G, R. -/
def gray2bgr (y : Nat) : Pixel := ⟨y, y, y⟩

/-- Model of `ImageProcessor.grayscale`: convert to single-channel gray, then back to
a 3-channel BGR buffer of the same shape. -/
def grayscale (buf : PixelBuffer) : PixelBuffer :=
  { buf with data := buf.data.map (List.map (fun p => gray2bgr (bgr2grayChan p))) }

/-- Model of `ImageProcessor.edge_detect`: BGR→gray, `cv2.Canny(gray, 100, 200)`
(an opaque external shape-preserving edge detector, passed in as the
parameter `canny`), then GRAY2BGR replication of the single-channel edge
map. -/
def edge_detect (canny : List (List Nat) → List (List Nat))
    (buf : PixelBuffer) : PixelBuffer :=
  { buf with
    data := (canny (buf.data.map (List.map bgr2grayChan))).map
      (List.map gray2bgr) }

/-- The kernel-size coercion inside `ImageProcessor.blur`:
`k = max(1, int(k)); if k % 2 == 0: k += 1`. -/
def normalizeKernel (k : Int) : Int :=
  let k1 := max 1 k
  if k1 % 2 = 0 then k1 + 1 else k1

/-- Model of `ImageProcessor.blur(k)`: coerce the kernel size and call
`cv2.GaussianBlur(img, (k, k), 0)`.  The Gaussian convolution itself is an
opaque external floating-point routine, passed in as `gauss`. -/
def blur (gauss : Int → PixelBuffer → PixelBuffer) (k : Int)
    (buf : PixelBuffer) : PixelBuffer :=
  gauss (normalizeKernel k) buf

/-- Model of `ImageProcessor.resize(scale)`: computes the target size
`(int(w*scale), int(h*scale))` (Python `int()` truncates toward zero; for a
non-negative product this is the floor) and calls `cv2.resize`, which raises
`!ssize.empty()` when the target size has a zero side.  The resampling
kernel of `cv2.resize` (bilinear, floating point) is opaque and passed in as
`sample`, giving the pixel at row `i`, column `j` of the result. -/
def resize (sample : PixelBuffer → Nat → Nat → Pixel) (scale : ℚ)
    (buf : PixelBuffer) : Except String PixelBuffer :=
  let w : Nat := (⌊(buf.width : ℚ) * scale⌋).toNat
  let h : Nat := (⌊(buf.height : ℚ) * scale⌋).toNat
  if w = 0 ∨ h = 0 then
    Except.error "cv2.error: !ssize.empty() in function cv::resize"
  else
    Except.ok
      { width := w, height := h,
        data := (List.range h).map (fun i =>
          (List.range w).map (fun j => sample buf i j)) }

end ImageProcessor

/-- The brightness operation as the claim describes it (for comparison with
the source): add `v` to each channel and CLAMP the sum into `[0, 255]`, so a
negative sum becomes `0`. -/
def brightness_claimed (value : Int) (buf : PixelBuffer) : PixelBuffer :=
  buf.mapPixels (Pixel.mapChan (fun x => (min 255 (max 0 (x + value))).toNat))

/-- All three channels agree at every pixel of the buffer. -/
def PixelBuffer.monochrome (buf : PixelBuffer) : Prop :=
  ∀ row ∈ buf.data, ∀ p ∈ row, p.g = p.b ∧ p.r = p.b

/-- Indexing commutes with `mapPixels` at in-range coordinates. -/
theorem PixelBuffer.pixel_mapPixels (f : Pixel → Pixel) (buf : PixelBuffer)
    (i j : Nat) (hi : i < buf.data.length)
    (hj : j < (buf.data.getD i []).length) :
    (buf.mapPixels f).pixel i j = f (buf.pixel i j) := by
  have hrow : buf.data.getD i [] = buf.data[i] := by
    rw [List.getD_eq_getElem?_getD, List.getElem?_eq_getElem hi]
    rfl
  have hj' : j < buf.data[i].length := by rw [← hrow]; exact hj
  unfold PixelBuffer.mapPixels PixelBuffer.pixel
  simp only [List.getD_eq_getElem?_getD]
  rw [List.getElem?_map]
  rw [List.getElem?_eq_getElem hi]
  simp only [Option.map_some', Option.getD_some]
  rw [List.getElem?_map, List.getElem?_eq_getElem hj']
  simp only [Option.map_some', Option.getD_some]

end Editor

namespace Editor

/-- C4 (counterexample): `brightness` is `cv2.convertScaleAbs`, which takes
the ABSOLUTE VALUE of `x + v` before saturating at 255.  On a 1×1 buffer
with channel value 10 and `v = -50` the code yields channel 40, while the
claimed clamp-to-range semantics yields 0. -/
theorem brightness_clamp_counterexample :
    ImageProcessor.brightness (-50)
        (PixelBuffer.mk 1 1 [[Pixel.mk 10 10 10]]) =
      PixelBuffer.mk 1 1 [[Pixel.mk 40 40 40]] ∧
    brightness_claimed (-50) (PixelBuffer.mk 1 1 [[Pixel.mk 10 10 10]]) =
      PixelBuffer.mk 1 1 [[Pixel.mk 0 0 0]] ∧
    ImageProcessor.brightness (-50)
        (PixelBuffer.mk 1 1 [[Pixel.mk 10 10 10]]) ≠
      brightness_claimed (-50) (PixelBuffer.mk 1 1 [[Pixel.mk 10 10 10]]) := by
  refine ⟨by decide, by decide, by decide⟩

/-- C4 (amended): `brightness v` keeps the recorded dimensions and maps each
in-range channel value `x` to `min 255 |x + v|` — absolute value of the sum,
saturated above at 255; a negative sum of magnitude `m` becomes
`min 255 m`, not 0. -/
theorem brightness_pointwise (v : Int) (buf : PixelBuffer) (i j : Nat)
    (hi : i < buf.data.length) (hj : j < (buf.data.getD i []).length) :
    (ImageProcessor.brightness v buf).width = buf.width ∧
    (ImageProcessor.brightness v buf).height = buf.height ∧
    (ImageProcessor.brightness v buf).pixel i j =
      (buf.pixel i j).mapChan (fun x => min 255 ((x + v).natAbs)) := by
  exact ⟨rfl, rfl, PixelBuffer.pixel_mapPixels _ buf i j hi hj⟩

/-- C4 witness: on a 1×1 buffer with channels `(200, 10, 255)` and `v = 100`
the pixel becomes `(255, 110, 255)`. -/
theorem brightness_pointwise_witness :
    (ImageProcessor.brightness 100
        (PixelBuffer.mk 1 1 [[Pixel.mk 200 10 255]])).width = 1 ∧
    (ImageProcessor.brightness 100
        (PixelBuffer.mk 1 1 [[Pixel.mk 200 10 255]])).height = 1 ∧
    (ImageProcessor.brightness 100
        (PixelBuffer.mk 1 1 [[Pixel.mk 200 10 255]])).pixel 0 0 =
      ((PixelBuffer.mk 1 1 [[Pixel.mk 200 10 255]]).pixel 0 0).mapChan
        (fun x => min 255 (((x : Int) + 100).natAbs)) :=
  brightness_pointwise 100 (PixelBuffer.mk 1 1 [[Pixel.mk 200 10 255]]) 0 0
    (by decide) (by decide)

/-- C8 (confirmed): `blur k` equals `blur k'` where `k'` is `max 1 k` when
that value is odd and `max 1 k + 1` otherwise — the kernel coercion is
idempotent, so re-running `blur` at the already-normalized kernel size gives
a bit-identical call to the Gaussian. -/
theorem blur_kernel_normalization (gauss : Int → PixelBuffer → PixelBuffer)
    (k : Int) (buf : PixelBuffer) :
    ImageProcessor.blur gauss k buf =
      ImageProcessor.blur gauss
        (if (max 1 k) % 2 = 0 then max 1 k + 1 else max 1 k) buf := by
  unfold ImageProcessor.blur ImageProcessor.normalizeKernel
  rcases le_or_lt k 1 with hk | hk
  · rw [max_eq_left hk]
    norm_num
  · rw [max_eq_right hk.le]
    rcases Int.emod_two_eq_zero_or_one k with he | he
    · have h1 : max 1 (k + 1) = k + 1 := by omega
      simp only [he, if_true, h1]
      have h2 : (k + 1) % 2 = 1 := by omega
      simp [h2]
    · have h1 : max 1 k = k := by omega
      simp [he, h1]

/-- C9 (confirmed): both `grayscale` and `edge_detect` produce buffers whose
pixels have all three channels equal — the single-channel result is
replicated identically into B, G and R by the GRAY2BGR conversion. -/
theorem grayscale_edge_detect_monochrome (buf : PixelBuffer)
    (canny : List (List Nat) → List (List Nat)) :
    (ImageProcessor.grayscale buf).monochrome ∧
    (ImageProcessor.edge_detect canny buf).monochrome := by
  constructor
  · intro row hrow p hp
    simp only [ImageProcessor.grayscale] at hrow
    obtain ⟨row0, -, rfl⟩ := List.mem_map.1 hrow
    obtain ⟨p0, -, rfl⟩ := List.mem_map.1 hp
    exact ⟨rfl, rfl⟩
  · intro row hrow p hp
    simp only [ImageProcessor.edge_detect] at hrow
    obtain ⟨row0, -, rfl⟩ := List.mem_map.1 hrow
    obtain ⟨y0, -, rfl⟩ := List.mem_map.1 hp
    exact ⟨rfl, rfl⟩

end Editor

namespace Editor

/-- C1 (counterexample): the round trip fails on a history state whose
`undo_stack` is empty while `redo_stack` is not: `undo` is a no-op, but the
subsequent `redo` pops the pre-existing entry `7`, not the current buffer
`3`. -/
theorem undo_redo_roundtrip_counterexample :
    (((HistoryManager.mk ([] : List Nat) [7]).undo 3).1.redo
      ((HistoryManager.mk ([] : List Nat) [7]).undo 3).2).2 ≠ 3 := by
  decide

/-- C1 (amended): `undo` then `redo` (no intervening `push`) restores the
pre-`undo` current buffer bit-identically provided `undo_stack` is non-empty
(so the `undo` actually fired), and symmetrically `redo` then `undo` restores
the pre-`redo` buffer provided `redo_stack` is non-empty. -/
theorem undo_redo_exact_inverse {α : Type} (h : HistoryManager α) (c : α) :
    (h.undo_stack ≠ [] → ((h.undo c).1.redo (h.undo c).2).2 = c) ∧
    (h.redo_stack ≠ [] → ((h.redo c).1.undo (h.redo c).2).2 = c) := by
  constructor
  · intro hu
    obtain he | ⟨l, x, hx⟩ := h.undo_stack.eq_nil_or_concat'
    · exact absurd he hu
    · obtain ⟨us, rs⟩ := h
      simp only at hx
      subst hx
      simp [HistoryManager.undo, HistoryManager.redo, npCopy]
  · intro hr
    obtain he | ⟨l, x, hx⟩ := h.redo_stack.eq_nil_or_concat'
    · exact absurd he hr
    · obtain ⟨us, rs⟩ := h
      simp only at hx
      subst hx
      simp [HistoryManager.undo, HistoryManager.redo, npCopy]

/-- C1 witness: both round trips on the state `⟨[5], [6]⟩` with current
buffer `3` return `3`. -/
theorem undo_redo_exact_inverse_witness :
    ((((HistoryManager.mk [5] [6]).undo 3).1.redo
        ((HistoryManager.mk ([5] : List Nat) [6]).undo 3).2).2 = 3) ∧
    ((((HistoryManager.mk [5] [6]).redo 3).1.undo
        ((HistoryManager.mk ([5] : List Nat) [6]).redo 3).2).2 = 3) :=
  ⟨(undo_redo_exact_inverse (HistoryManager.mk [5] [6]) 3).1 (by decide),
   (undo_redo_exact_inverse (HistoryManager.mk [5] [6]) 3).2 (by decide)⟩

/-- C5 (counterexample): `push None` is a no-op, so on a state whose
`redo_stack` already holds `7` the `redo_stack` is NOT empty after the call —
the claim "after a call to push the redo_stack is empty" fails for an absent
buffer. -/
theorem push_clears_redo_counterexample :
    ((HistoryManager.mk ([] : List Nat) [7]).push none).redo_stack ≠ [] := by
  decide

/-- C5 (amended): after `push` of a PRESENT buffer the `redo_stack` is empty,
and `push` of an absent buffer leaves the whole state unchanged (so
`redo_stack` keeps whatever it held). -/
theorem push_clears_redo {α : Type} (h : HistoryManager α) (img : α) :
    (h.push (some img)).redo_stack = [] ∧ h.push none = h :=
  ⟨rfl, rfl⟩

/-- C10 (confirmed): `undo` on an empty `undo_stack` returns `current` and
leaves both stacks unchanged, and symmetrically for `redo` on an empty
`redo_stack`. -/
theorem undo_redo_empty_noop {α : Type} (h : HistoryManager α) (c : α) :
    (h.undo_stack = [] → h.undo c = (h, c)) ∧
    (h.redo_stack = [] → h.redo c = (h, c)) := by
  constructor
  · intro hu
    simp [HistoryManager.undo, hu]
  · intro hr
    simp [HistoryManager.redo, hr]

/-- C10 witness: on the empty history with current buffer `5`, both `undo`
and `redo` return `5` and leave the state untouched. -/
theorem undo_redo_empty_noop_witness :
    (HistoryManager.mk ([] : List Nat) []).undo 5 =
      (HistoryManager.mk ([] : List Nat) [], 5) ∧
    (HistoryManager.mk ([] : List Nat) []).redo 5 =
      (HistoryManager.mk ([] : List Nat) [], 5) :=
  ⟨(undo_redo_empty_noop (HistoryManager.mk [] []) 5).1 rfl,
   (undo_redo_empty_noop (HistoryManager.mk [] []) 5).2 rfl⟩

end Editor

namespace Editor

deriving instance DecidableEq for Except

/-- A 3×3 all-black test buffer. -/
def buf3 : PixelBuffer :=
  ⟨3, 3, List.replicate 3 (List.replicate 3 ⟨0, 0, 0⟩)⟩

/-- A stand-in concrete resampling kernel for tests (always black). -/
def sampleBlack : PixelBuffer → Nat → Nat → Pixel := fun _ _ _ => ⟨0, 0, 0⟩

/-- C3 (code bug): `resize` is NOT total on well-formed buffers for every
`scale > 0`: on a well-formed 1×1 buffer with `scale = 1/2` the code
computes the target size `(int(1·0.5), int(1·0.5)) = (0, 0)` and
`cv2.resize` raises, while the spec requires no operation to throw on a
non-null buffer of valid shape. -/
theorem resize_crashes_on_1x1_half :
    ImageProcessor.resize sampleBlack (1/2) ⟨1, 1, [[⟨0, 0, 0⟩]]⟩ =
      Except.error "cv2.error: !ssize.empty() in function cv::resize" ∧
    (⟨1, 1, [[⟨0, 0, 0⟩]]⟩ : PixelBuffer).wf ∧ (0 : ℚ) < 1/2 := by
  refine ⟨?_, by decide, by norm_num⟩
  rw [ImageProcessor.resize]
  norm_num

/-- C6 (counterexample): on a 3×3 buffer with `scale = 1/2` the code
produces width `int(3·0.5) = 1`, whereas rounding to the nearest integer
gives `round(1.5) = 2` — the target size is truncated, not rounded. -/
theorem resize_truncation_counterexample :
    (ImageProcessor.resize sampleBlack (1/2) buf3).map PixelBuffer.width =
      Except.ok 1 ∧
    round ((3 : ℚ) * (1/2)) = 2 := by
  constructor
  · rw [ImageProcessor.resize]
    norm_num [Except.map, buf3]
  · norm_num [round_eq]

/-- C6 (amended): whenever `resize scale` succeeds, the produced buffer has
width `⌊W·scale⌋` and height `⌊H·scale⌋` — truncation toward zero (Python
`int`), not rounding to nearest; and the call fails precisely when one of
the truncated sizes is zero. -/
theorem resize_dims_floor (sample : PixelBuffer → Nat → Nat → Pixel)
    (scale : ℚ) (buf : PixelBuffer) :
    (∀ res, ImageProcessor.resize sample scale buf = Except.ok res →
      (res.width : ℤ) = ⌊(buf.width : ℚ) * scale⌋ ∧
      (res.height : ℤ) = ⌊(buf.height : ℚ) * scale⌋) ∧
    ((∃ e, ImageProcessor.resize sample scale buf = Except.error e) ↔
      ⌊(buf.width : ℚ) * scale⌋ ≤ 0 ∨ ⌊(buf.height : ℚ) * scale⌋ ≤ 0) := by
  by_cases hc : (⌊(buf.width : ℚ) * scale⌋).toNat = 0 ∨
      (⌊(buf.height : ℚ) * scale⌋).toNat = 0
  · constructor
    · intro res hres
      rw [ImageProcessor.resize, if_pos hc] at hres
      exact absurd hres (by simp)
    · constructor
      · intro _
        omega
      · intro _
        exact ⟨_, by rw [ImageProcessor.resize, if_pos hc]⟩
  · constructor
    · intro res hres
      rw [ImageProcessor.resize, if_neg hc] at hres
      have hres' := (Except.ok.inj hres).symm
      subst hres'
      constructor
      · show ((((⌊(buf.width : ℚ) * scale⌋).toNat : ℕ)) : ℤ) = _
        omega
      · show ((((⌊(buf.height : ℚ) * scale⌋).toNat : ℕ)) : ℤ) = _
        omega
    · constructor
      · rintro ⟨e, he⟩
        rw [ImageProcessor.resize, if_neg hc] at he
        exact absurd he (by simp)
      · intro hle
        omega

/-- C6 witness: resizing a 3×3 buffer by `1/2` succeeds with dimensions
`1 × 1 = (⌊1.5⌋, ⌊1.5⌋)`, and the failure characterization holds for the
crashing 1×1 instance. -/
theorem resize_dims_floor_witness :
    (((1 : ℕ) : ℤ) = ⌊(((3 : ℕ) : ℚ)) * (1/2)⌋ ∧
     ((1 : ℕ) : ℤ) = ⌊(((3 : ℕ) : ℚ)) * (1/2)⌋) ∧
    ((∃ e, ImageProcessor.resize sampleBlack (1/2) ⟨1, 1, [[⟨0, 0, 0⟩]]⟩ =
        Except.error e) ↔
      ⌊(((1 : ℕ) : ℚ)) * (1/2)⌋ ≤ 0 ∨ ⌊(((1 : ℕ) : ℚ)) * (1/2)⌋ ≤ 0) :=
  ⟨(resize_dims_floor sampleBlack (1/2) buf3).1
      ⟨1, 1, [[sampleBlack buf3 0 0]]⟩
      (by rw [ImageProcessor.resize]; norm_num [buf3, List.range_succ]),
   (resize_dims_floor sampleBlack (1/2) ⟨1, 1, [[⟨0, 0, 0⟩]]⟩).2⟩

/-- C7 (counterexample): on a well-formed 3×3 buffer, `resize(0.5)` yields a
1×1 buffer and the subsequent `resize(2.0)` yields 2×2, not 3×3 — the
round trip does not restore odd dimensions. -/
theorem resize_half_double_counterexample :
    ((ImageProcessor.resize sampleBlack (1/2) buf3).bind
        (ImageProcessor.resize sampleBlack 2)).map
      (fun res => (res.width, res.height)) = Except.ok (2, 2) ∧
    (buf3.width, buf3.height) = (3, 3) ∧ buf3.wf := by
  refine ⟨?_, by decide, by decide⟩
  rw [ImageProcessor.resize]
  norm_num [Except.map, Except.bind, ImageProcessor.resize, buf3,
    Int.toNat_ofNat]
  decide

/-- C7 (amended): for a buffer whose width and height are both positive and
EVEN, `resize(0.5)` followed by `resize(2.0)` restores the original
dimensions (pixel values are not claimed). -/
theorem resize_half_double_dims (s1 s2 : PixelBuffer → Nat → Nat → Pixel)
    (buf : PixelBuffer) (hw2 : buf.width % 2 = 0) (hh2 : buf.height % 2 = 0)
    (hw0 : 0 < buf.width) (hh0 : 0 < buf.height) :
    ((ImageProcessor.resize s1 (1/2) buf).bind
        (ImageProcessor.resize s2 2)).map
      (fun res => (res.width, res.height)) =
      Except.ok (buf.width, buf.height) := by
  obtain ⟨a, ha⟩ : ∃ a, buf.width = 2 * a := ⟨buf.width / 2, by omega⟩
  obtain ⟨b, hb⟩ : ∃ b, buf.height = 2 * b := ⟨buf.height / 2, by omega⟩
  have ha0 : 0 < a := by omega
  have hb0 : 0 < b := by omega
  have hfa : ⌊((buf.width : ℚ)) * (1/2)⌋ = (a : ℤ) := by
    rw [ha]
    have : (((2 * a : ℕ) : ℚ)) * (1/2) = ((a : ℕ) : ℚ) := by
      push_cast
      ring
    rw [this, Int.floor_natCast]
  have hfb : ⌊((buf.height : ℚ)) * (1/2)⌋ = (b : ℤ) := by
    rw [hb]
    have : (((2 * b : ℕ) : ℚ)) * (1/2) = ((b : ℕ) : ℚ) := by
      push_cast
      ring
    rw [this, Int.floor_natCast]
  have h1 : ImageProcessor.resize s1 (1/2) buf = Except.ok
      ⟨a, b, (List.range b).map (fun i =>
        (List.range a).map (fun j => s1 buf i j))⟩ := by
    rw [ImageProcessor.resize]
    simp only [hfa, hfb, Int.toNat_natCast]
    rw [if_neg (by omega)]
  rw [h1]
  have hga : ⌊((a : ℚ)) * 2⌋ = ((2 * a : ℕ) : ℤ) := by
    have : ((a : ℚ)) * 2 = (((2 * a : ℕ) : ℕ) : ℚ) := by
      push_cast
      ring
    rw [this, Int.floor_natCast]
  have hgb : ⌊((b : ℚ)) * 2⌋ = ((2 * b : ℕ) : ℤ) := by
    have : ((b : ℚ)) * 2 = (((2 * b : ℕ) : ℕ) : ℚ) := by
      push_cast
      ring
    rw [this, Int.floor_natCast]
  show ((ImageProcessor.resize s2 2 _).map _) = _
  rw [ImageProcessor.resize]
  simp only [hga, hgb, Int.toNat_natCast]
  rw [if_neg (by omega)]
  simp only [Except.map]
  rw [ha, hb]

/-- C7 witness: on a 2×2 buffer the halve-then-double round trip restores
the 2×2 dimensions. -/
theorem resize_half_double_dims_witness :
    ((ImageProcessor.resize sampleBlack (1/2)
        ⟨2, 2, List.replicate 2 (List.replicate 2 ⟨0, 0, 0⟩)⟩).bind
        (ImageProcessor.resize sampleBlack 2)).map
      (fun res => (res.width, res.height)) =
      Except.ok ((⟨2, 2, List.replicate 2 (List.replicate 2 ⟨0, 0, 0⟩)⟩ :
        PixelBuffer).width,
        (⟨2, 2, List.replicate 2 (List.replicate 2 ⟨0, 0, 0⟩)⟩ :
        PixelBuffer).height) :=
  resize_half_double_dims sampleBlack sampleBlack
    ⟨2, 2, List.replicate 2 (List.replicate 2 ⟨0, 0, 0⟩)⟩
    (by decide) (by decide) (by decide) (by decide)

end Editor

namespace Editor

/-- The slice of `ImageEditorApp` state that the slider-preview logic of
`gui_app.py` reads and writes: the processor's current image
(`self.processor.image`), the history manager, and the pre-gesture baseline
(`self.original_for_sliders`, `None` when no gesture is armed). -/
structure EditorState where
  processor_image : Option PixelBuffer
  history : HistoryManager PixelBuffer
  original_for_sliders : Option PixelBuffer
deriving DecidableEq

/-- Model of `ImageEditorApp.do_brightness(v)`: if no image is loaded, show an error
and return; on the first event of a gesture, store a copy of the current
image as `original_for_sliders` and `push` it to history; on every event,
set the processor image to a copy of the baseline and apply
`ImageProcessor.brightness` with the slider value. -/
def do_brightness (s : EditorState) (v : Int) : EditorState :=
  match s.processor_image with
  | none => s
  | some img =>
    match s.original_for_sliders with
    | none =>
        let baseline := npCopy img
        { processor_image :=
            some (ImageProcessor.brightness v (npCopy baseline)),
          history := s.history.push (some baseline),
          original_for_sliders := some baseline }
    | some baseline =>
        { processor_image :=
            some (ImageProcessor.brightness v (npCopy baseline)),
          history := s.history,
          original_for_sliders := some baseline }

/-- C2 (confirmed): with image `I` loaded and no gesture armed, three
consecutive brightness preview events with parameters 10, 50 and −20 push
exactly one new entry (a copy of `I`) onto `undo_stack`, clear `redo_stack`,
and leave the current buffer equal to `brightness` applied with −20 directly
to `I` — not a composition of the three adjustments. -/
theorem preview_brightness_single_entry (I : PixelBuffer)
    (H : HistoryManager PixelBuffer) :
    (do_brightness (do_brightness (do_brightness
        ⟨some I, H, none⟩ 10) 50) (-20)).history.undo_stack =
      H.undo_stack ++ [I] ∧
    (do_brightness (do_brightness (do_brightness
        ⟨some I, H, none⟩ 10) 50) (-20)).history.redo_stack = [] ∧
    (do_brightness (do_brightness (do_brightness
        ⟨some I, H, none⟩ 10) 50) (-20)).processor_image =
      some (ImageProcessor.brightness (-20) I) :=
  ⟨rfl, rfl, rfl⟩

end Editor
